/-
Verification development for the Terrenos_Historicos_Traccar telemetry pipeline.

The definitions below are a shallow embedding of the Python sources:
  - src/data_processing.py : clean_text, SPEED_EXCESS_RE, MINUTES_RE,
    detect_speed_excesses, the time-of-day bucketing of
    calculate_driving_metrics, and process_vehicle_files;
  - src/analysis.py : calculate_risk_score, calculate_enhanced_risk_score,
    perform_clustering (with numpy-style linear-interpolation percentiles);
  - src/config.py : the constants the above consume.

Conventions: pandas frames become lists of records, timestamps are integer
seconds, real arithmetic is over ℚ, regular expressions become executable
matchers over lists of characters, and the per-day try/except of
process_vehicle_files becomes an Except-valued day processor.
-/
import Mathlib

/-! ### Character-level text model

Python `\s` (for the `str` patterns used here) and `str.strip` whitespace. -/

/-- Whitespace class used by the regexes and by Python's str.strip. -/
def isPySpace (c : Char) : Bool :=
  c = ' ' || c = '\t' || c = '\n' || c = '\r' || c = '\x0b' || c = '\x0c'

/-- Python str.strip: drop leading and trailing whitespace. -/
def py_strip (l : List Char) : List Char :=
  ((l.dropWhile isPySpace).reverse.dropWhile isPySpace).reverse

/-- Embedding of src/data_processing.py line 21,
re.sub(r"[\\[\\]\\(\\)]", "", text): inside the raw string the doubled
backslashes make the character class close at the first unescaped bracket, so
the pattern actually matches the four-character sequences backslash-backslash-
backslash-bracket and openbracket-backslash-backslash-bracket, not single
bracket characters.  One scan step removes one leftmost non-overlapping match,
exactly as re.sub does. -/
def clean_text_sub : List Char → List Char
  | [] => []
  | c :: '\\' :: '\\' :: ']' :: rest =>
    if c = '\\' || c = '[' then clean_text_sub rest
    else c :: clean_text_sub ('\\' :: '\\' :: ']' :: rest)
  | c :: cs => c :: clean_text_sub cs

/-- src/data_processing.py clean_text: the (malformed) substitution followed by
str.strip.  (str(text) is the identity on the strings modelled here.) -/
def clean_text (l : List Char) : List Char :=
  py_strip (clean_text_sub l)

/-! ### Executable embedding of the two regular expressions

SPEED_EXCESS_RE (src/data_processing.py lines 12-16) and MINUTES_RE (line 17),
both compiled with re.IGNORECASE and used through re.search semantics (try a
match at every start position, leftmost first).  All literals are stored
lowercased; the subject character is lowercased at comparison time. -/

/-- Case-insensitive literal match; on success returns the rest of the input. -/
def matchLit : List Char → List Char → Option (List Char)
  | [], rest => some rest
  | _ :: _, [] => none
  | p :: ps, c :: cs => if c.toLower = p then matchLit ps cs else none

/-- Greedy \s* . -/
def skipWS (l : List Char) : List Char := l.dropWhile isPySpace

/-- Greedy \s+ : at least one whitespace character. -/
def matchWS1 : List Char → Option (List Char)
  | [] => none
  | c :: cs => if isPySpace c then some (skipWS cs) else none

/-- Greedy [0-9]+ . -/
def matchDigits1 : List Char → Option (List Char)
  | [] => none
  | c :: cs => if c.isDigit then some (cs.dropWhile Char.isDigit) else none

/-- The number pattern [0-9]+(\.[0-9]+)? of SPEED_EXCESS_RE. -/
def matchNumber (l : List Char) : Option (List Char) :=
  match matchDigits1 l with
  | none => none
  | some rest =>
    match rest with
    | '.' :: cs =>
      match matchDigits1 cs with
      | some r => some r
      | none => some rest
    | _ => some rest

/-- Literal chunk of SPEED_EXCESS_RE. -/
def lit_exceso : List Char := ("exceso de velocidad:").toList

/-- Literal chunk km/h. -/
def lit_kmh : List Char := ("km/h").toList

/-- Literal chunk en. -/
def lit_en : List Char := ("en").toList

/-- Literal chunk zona. -/
def lit_zona : List Char := ("zona").toList

/-- Literal chunk de. -/
def lit_de : List Char := ("de").toList

/-- SPEED_EXCESS_RE anchored at the start of l:
Exceso de Velocidad:\s*([0-9]+(\.[0-9]+)?)\s*km/h\s+en\s+zona\s+de\s*
([0-9]+(\.[0-9]+)?)\s*km/h  — note that the zone clause is mandatory. -/
def speed_excess_at (l : List Char) : Bool :=
  (do
    let r ← matchLit lit_exceso l
    let r ← matchNumber (skipWS r)
    let r ← matchLit lit_kmh (skipWS r)
    let r ← matchWS1 r
    let r ← matchLit lit_en r
    let r ← matchWS1 r
    let r ← matchLit lit_zona r
    let r ← matchWS1 r
    let r ← matchLit lit_de r
    let r ← matchNumber (skipWS r)
    let r ← matchLit lit_kmh (skipWS r)
    pure r).isSome

/-- SPEED_EXCESS_RE.search: a match may start at any position. -/
def speed_excess_search : List Char → Bool
  | [] => false
  | c :: cs => speed_excess_at (c :: cs) || speed_excess_search cs

/-- Spec-side pattern, clearly distinguished from the source regex: the
specification (section 4.2) says the phrase gives an observed speed and only
OPTIONALLY a posted zone limit, so a match is decided by the mandatory part
alone: Exceso de Velocidad:\s*number\s*km/h with everything after optional. -/
def speed_excess_at_spec (l : List Char) : Bool :=
  (do
    let r ← matchLit lit_exceso l
    let r ← matchNumber (skipWS r)
    let r ← matchLit lit_kmh (skipWS r)
    pure r).isSome

/-- Spec-side search: zone clause optional, match anywhere. -/
def speed_excess_search_spec : List Char → Bool
  | [] => false
  | c :: cs => speed_excess_at_spec (c :: cs) || speed_excess_search_spec cs

/-- Numeric value of a digit string, as int() on the captured group. -/
def digitsToNat (l : List Char) : Nat :=
  l.foldl (fun n c => 10 * n + (c.toNat - ('0').toNat)) 0

/-- Literal chunk durante. -/
def lit_durante : List Char := ("durante").toList

/-- Literal chunk minuto (the trailing s of minutos? is optional, so a match is
decided by this prefix). -/
def lit_minuto : List Char := ("minuto").toList

/-- MINUTES_RE durante\s*(\d+)\s*minutos? anchored at the start of l, returning
the captured number. -/
def minutes_at (l : List Char) : Option Nat :=
  match matchLit lit_durante l with
  | none => none
  | some r =>
    match skipWS r with
    | [] => none
    | c :: cs =>
      if c.isDigit then
        match matchLit lit_minuto (skipWS (cs.dropWhile Char.isDigit)) with
        | some _ => some (digitsToNat (c :: cs.takeWhile Char.isDigit))
        | none => none
      else none

/-- MINUTES_RE.search via str.extract: the first (leftmost) match's group. -/
def minutes_search : List Char → Option Nat
  | [] => none
  | c :: cs =>
    match minutes_at (c :: cs) with
    | some n => some n
    | none => minutes_search cs

/-! ### Samples and the excess-run detector (src/data_processing.py 137-175) -/

/-- One telemetry row as seen by detect_speed_excesses: Hora (seconds),
dt_sec (seconds since the previous row, 0 for the first), and the two free-text
annotation columns Evento and Flags. -/
structure Sample where
  hora : Int
  dt_sec : Int
  evento : List Char
  flags : List Char
deriving DecidableEq

/-- Evento_clean column (line 139). -/
def evento_clean (s : Sample) : List Char := clean_text s.evento

/-- is_exceso column (line 140): SPEED_EXCESS_RE searched in Evento_clean. -/
def is_exceso (s : Sample) : Bool := speed_excess_search (evento_clean s)

/-- Texto column of load_excel_file (lines 29-30): Evento and Flags joined by a
single space, then clean_text; this is the raw_text of the specification. -/
def raw_text (s : Sample) : List Char := clean_text (s.evento ++ ' ' :: s.flags)

/-- Run-length grouping: run_id = (is_exceso != is_exceso.shift(1)).cumsum()
followed by groupby(run_id) (lines 142, 147) groups the rows into maximal
blocks of consecutive rows on which R holds pairwise along the block; a new
block starts exactly when R fails against the previous row. -/
def splitRuns {α : Type} (R : α → α → Bool) : List α → List (List α)
  | [] => []
  | a :: as =>
    match splitRuns R as with
    | [] => [[a]]
    | [] :: rs => [a] :: rs
    | (b :: r) :: rs => if R a b then (a :: b :: r) :: rs else [a] :: (b :: r) :: rs

/-- Rows fall in the same run when their is_exceso booleans agree. -/
def sameFlag (a b : Sample) : Bool := is_exceso a == is_exceso b

/-- One detected excess episode (start_idx and end_idx of the source are not
needed by the claims and are left unmodelled). -/
structure Episode where
  start_time : Int
  duration_sec : Int
deriving DecidableEq

/-- Maximum of the minutes phrases extracted over the run (lines 161-163):
group Evento_clean, str.extract(MINUTES_RE), dropna, max. -/
def run_minutes (r : List Sample) : Option Nat :=
  match r.filterMap (fun s => minutes_search (evento_clean s)) with
  | [] => none
  | x :: xs => some (xs.foldl Nat.max x)

/-- Duration of one flagged run (lines 151-164): baseline from the row after
the run when it exists (end_ts - start_ts), otherwise the run's own dt_sec sum;
a minutes phrase anywhere in the run ADDS max-minutes * 60 to that baseline. -/
def run_duration (r : List Sample) (next : Option Sample) : Int :=
  let base : Int :=
    match next, r with
    | some nxt, s0 :: _ => nxt.hora - s0.hora
    | _, _ => (r.map Sample.dt_sec).sum
  match run_minutes r with
  | some m => (m : Int) * 60 + base
  | none => base

/-- Loop body of detect_speed_excesses (lines 147-173): walk the runs in order,
skip unflagged ones, and emit an episode whose next row is the first row of the
remaining runs (end_idx + 1 of the source). -/
def episodes_of_runs : List (List Sample) → List Episode
  | [] => []
  | [] :: rs => episodes_of_runs rs
  | (s0 :: r) :: rs =>
    if is_exceso s0 then
      Episode.mk s0.hora (run_duration (s0 :: r) rs.flatten.head?) ::
        episodes_of_runs rs
    else episodes_of_runs rs

/-- detect_speed_excesses: flag, group into runs, reconcile durations. -/
def detect_speed_excesses (samples : List Sample) : List Episode :=
  episodes_of_runs (splitRuns sameFlag samples)

/-! ### Time-of-day bucketing (src/data_processing.py 199-210)

df["franja"] = pd.cut(df["hora"], bins=[0, 6, 12, 18, 24],
                      labels=["Madrugada", "Mañana", "Tarde", "Noche"]).
pd.cut defaults to right-closed intervals and excludes the lowest edge, so the
buckets realised by the code are (0,6], (6,12], (12,18], (18,24] and the value
0 falls in no bucket (NaN, modelled as none). -/

/-- The four time-of-day labels. -/
inductive Franja
  | madrugada
  | manana
  | tarde
  | noche
deriving DecidableEq

/-- Bucket of an hour value under pd.cut(bins=[0,6,12,18,24]) defaults. -/
def franja_of (h : Nat) : Option Franja :=
  if 0 < h ∧ h ≤ 6 then some Franja.madrugada
  else if 6 < h ∧ h ≤ 12 then some Franja.manana
  else if 12 < h ∧ h ≤ 18 then some Franja.tarde
  else if 18 < h ∧ h ≤ 24 then some Franja.noche
  else none

/-! ### Daily metrics rows and the risk scorers (src/analysis.py 88-154) -/

/-- The fields of one DailyMetrics row consumed by the scorers and by the
clustering features (src/analysis.py lines 62-66); risk_score is the column
the classifier reads. -/
structure DailyMetrics where
  vel_media_mov : ℚ
  vel_max : ℚ
  distancia_km : ℚ
  num_excesos : ℚ
  dur_exceso_tot_sec : ℚ
  excesos_por_km : ℚ
  harsh_accel_windows : ℚ
  harsh_brake_windows : ℚ
  risk_score : ℚ
deriving DecidableEq

/-- config.DEFAULT_SPEED_THRESHOLD (src/config.py line 63). -/
def DEFAULT_SPEED_THRESHOLD : ℚ := 85

/-- excesos_score = min(excesos_por_km * 100, 100). -/
def excesos_score (row : DailyMetrics) : ℚ :=
  min (row.excesos_por_km * 100) 100

/-- vel_score = min((vel_max - 80) / 40 * 100, 100) if vel_max > 80 else 0. -/
def vel_score (row : DailyMetrics) : ℚ :=
  if row.vel_max > 80 then min ((row.vel_max - 80) / 40 * 100) 100 else 0

/-- agresiv_score = min((harsh_accel_windows + harsh_brake_windows) * 5, 100). -/
def agresiv_score (row : DailyMetrics) : ℚ :=
  min ((row.harsh_accel_windows + row.harsh_brake_windows) * 5) 100

/-- duracion_score = min(dur_exceso_tot_sec / 600 * 100, 100). -/
def duracion_score (row : DailyMetrics) : ℚ :=
  min (row.dur_exceso_tot_sec / 600 * 100) 100

/-- umbral_score of calculate_enhanced_risk_score (lines 111-116). -/
def umbral_score (row : DailyMetrics) (speed_threshold : ℚ) : ℚ :=
  if row.vel_max > speed_threshold then
    min ((row.vel_max - speed_threshold) / 30 * 100) 100
  else 0

/-- calculate_risk_score (src/analysis.py 129-154): weights 0.3/0.2/0.3/0.2,
final min with 100. -/
def calculate_risk_score (row : DailyMetrics) : ℚ :=
  min (excesos_score row * (3 / 10) + vel_score row * (2 / 10) +
       agresiv_score row * (3 / 10) + duracion_score row * (2 / 10)) 100

/-- calculate_enhanced_risk_score (src/analysis.py 88-127): weights
0.25/0.15/0.25/0.15/0.20, final min with 100.  The speed_threshold argument is
explicit; the source's None default resolves to DEFAULT_SPEED_THRESHOLD. -/
def calculate_enhanced_risk_score (row : DailyMetrics) (speed_threshold : ℚ) : ℚ :=
  min (excesos_score row * (25 / 100) + vel_score row * (15 / 100) +
       agresiv_score row * (25 / 100) + duracion_score row * (15 / 100) +
       umbral_score row speed_threshold * (20 / 100)) 100

/-! ### Profile classifier (src/analysis.py 12-86) -/

/-- scores.max() for the nonempty score array. -/
def listMaxQ : List ℚ → ℚ
  | [] => 0
  | x :: xs => xs.foldl max x

/-- scores.min() for the nonempty score array. -/
def listMinQ : List ℚ → ℚ
  | [] => 0
  | x :: xs => xs.foldl min x

/-- Insertion step of the sort underlying np.percentile. -/
def insertLe (x : ℚ) : List ℚ → List ℚ
  | [] => [x]
  | y :: ys => if x ≤ y then x :: y :: ys else y :: insertLe x ys

/-- Ascending sort of the scores (np.percentile sorts its input). -/
def sortQ : List ℚ → List ℚ
  | [] => []
  | x :: xs => insertLe x (sortQ xs)

/-- np.percentile(scores, q) with the default linear-interpolation method:
position q/100 * (n-1), value a[i] + frac * (a[i+1] - a[i]). -/
def percentile (scores : List ℚ) (q : ℚ) : ℚ :=
  let sorted := sortQ scores
  let pos : ℚ := q / 100 * ((sorted.length : ℚ) - 1)
  let i : Nat := (⌊pos⌋).toNat
  let f : ℚ := pos - (i : ℚ)
  let a := sorted.getD i 0
  let b := sorted.getD (i + 1) a
  a + f * (b - a)

/-- threshold_low = max(p33, min_moderate_threshold 15) (line 41). -/
def threshold_low (scores : List ℚ) : ℚ :=
  max (percentile scores 33) 15

/-- threshold_high = max(p67, min_risky_threshold 30), then forced up to
threshold_low + 10 whenever threshold_high <= threshold_low (lines 42-46). -/
def threshold_high (scores : List ℚ) : ℚ :=
  let t := max (percentile scores 67) 30
  if t ≤ threshold_low scores then threshold_low scores + 10 else t

/-- assign_smart_cluster (lines 48-54). -/
def assign_smart_cluster (tl th s : ℚ) : Nat :=
  if s < tl then 0 else if s < th then 1 else 2

/-- config.N_CLUSTERS. -/
def N_CLUSTERS : Nat := 3

/-- The fixed 8-feature vector of a row (src/analysis.py 62-66). -/
def features (r : DailyMetrics) : List ℚ :=
  [r.vel_media_mov, r.vel_max, r.distancia_km, r.num_excesos,
   r.dur_exceso_tot_sec, r.excesos_por_km, r.harsh_accel_windows,
   r.harsh_brake_windows]

/-- Column mean of one feature over a cluster's member rows. -/
def meanColumn (rows : List DailyMetrics) (j : Nat) : ℚ :=
  (rows.map (fun r => (features r).getD j 0)).sum / (rows.length : ℚ)

/-- Centroid of one cluster: feature means when it has members, the all-zero
vector otherwise (lines 68-75). -/
def cluster_center (members : List DailyMetrics) : List ℚ :=
  if members.isEmpty then List.replicate 8 0
  else (List.range 8).map (meanColumn members)

/-- Centroid table: one centroid per cluster id 0..N_CLUSTERS-1 (lines 68-77). -/
def cluster_centers (assigned : List (DailyMetrics × Nat)) : List (List ℚ) :=
  (List.range N_CLUSTERS).map (fun cid =>
    cluster_center ((assigned.filter (fun p => p.2 == cid)).map Prod.fst))

/-- perform_clustering (src/analysis.py 12-86): empty input is returned as-is
with an empty centroid table; a batch whose score range is below 10 is wholly
assigned cluster 0; otherwise each row gets assign_smart_cluster of its
risk_score under the dynamic thresholds.  The perfil-label column is the
cosmetic CLUSTER_NAMES rendering of the cluster id and is not modelled. -/
def perform_clustering (df_metrics : List DailyMetrics) :
    List (DailyMetrics × Nat) × List (List ℚ) :=
  if df_metrics.isEmpty then ([], [])
  else
    let scores := df_metrics.map DailyMetrics.risk_score
    let assigned :=
      if listMaxQ scores - listMinQ scores < 10 then
        df_metrics.map (fun r => (r, 0))
      else
        df_metrics.map (fun r =>
          (r, assign_smart_cluster (threshold_low scores) (threshold_high scores)
                r.risk_score))
    (assigned, cluster_centers assigned)

/-! ### Per-day batch loop (src/data_processing.py 226-264)

process_vehicle_files wraps load_excel_file, detect_speed_excesses and
calculate_driving_metrics for one day in a try/except that logs and continues
on any exception; the day pipeline is modelled as an Except-valued function. -/

/-- process_vehicle_files: fold the per-day pipeline over the day files,
keeping the result of every day that does not raise and skipping the rest. -/
def process_vehicle_files {α β ε : Type} (process_one : α → Except ε β)
    (excel_files : List α) : List β :=
  excel_files.filterMap (fun f => (process_one f).toOption)

/-! ### Concrete inputs used by witnesses and counterexamples -/

/-- The run boundary seen by a flagged run: the neighbouring row, when it
exists, must be unflagged. -/
def boundary_ok : Option Sample → Bool
  | some s => !(is_exceso s)
  | none => true

/-- A row whose Evento carries the full phrase, zone clause included. -/
def sampleWithZone : Sample :=
  Sample.mk 0 0 (("Exceso de Velocidad: 95 km/h en zona de 60 km/h").toList) []

/-- A row whose Evento states a speed excess without the zone clause. -/
def sampleNoZone : Sample :=
  Sample.mk 0 0 (("Exceso de Velocidad: 95 km/h").toList) []

/-- A row whose full phrase appears only in the Flags column. -/
def sampleFlagsOnly : Sample :=
  Sample.mk 0 0 [] (("Exceso de Velocidad: 95 km/h en zona de 60 km/h").toList)

/-- An unflagged row at t = 0. -/
def sOK : Sample := Sample.mk 0 0 (("sin novedad").toList) []

/-- A flagged row at t = 60 carrying a two-minutes phrase. -/
def sExc : Sample :=
  Sample.mk 60 60
    (("Exceso de Velocidad: 95 km/h en zona de 60 km/h durante 2 minutos").toList) []

/-- The unflagged row following the excess run, at t = 180. -/
def sNext : Sample := Sample.mk 180 120 (("fin de ruta").toList) []

/-- A concrete DailyMetrics row. -/
def rowA : DailyMetrics :=
  DailyMetrics.mk 30 95 120 3 300 1 2 1 20

/-- A second concrete DailyMetrics row with larger metrics. -/
def rowB : DailyMetrics :=
  DailyMetrics.mk 40 120 200 8 900 2 5 4 80

/-- The annotated text of the C5 scenario. -/
def parenExample : List Char := ("Exceso de Velocidad (95 km/h)").toList

/-- A concrete Except-valued day pipeline: day 0 fails, every other day n
yields the value 10 * n. -/
def procDay : Nat → Except (List Char) Nat := fun n =>
  if n = 0 then Except.error (("dia invalido").toList) else Except.ok (10 * n)

/-! ## Helper lemmas (shared) -/

/-- excesos_score is non-negative on a well-formed row. -/
theorem excesos_score_nonneg (row : DailyMetrics) (h : 0 ≤ row.excesos_por_km) :
    0 ≤ excesos_score row :=
  le_min (by positivity) (by norm_num)

/-- vel_score is non-negative (the branch condition supplies vel_max > 80). -/
theorem vel_score_nonneg (row : DailyMetrics) : 0 ≤ vel_score row := by
  rw [vel_score]
  split
  · exact le_min (by nlinarith) (by norm_num)
  · exact le_refl 0

/-- agresiv_score is non-negative on a well-formed row. -/
theorem agresiv_score_nonneg (row : DailyMetrics)
    (h3 : 0 ≤ row.harsh_accel_windows) (h4 : 0 ≤ row.harsh_brake_windows) :
    0 ≤ agresiv_score row :=
  le_min (by positivity) (by norm_num)

/-- duracion_score is non-negative on a well-formed row. -/
theorem duracion_score_nonneg (row : DailyMetrics)
    (h5 : 0 ≤ row.dur_exceso_tot_sec) : 0 ≤ duracion_score row :=
  le_min (by positivity) (by norm_num)

/-- umbral_score is non-negative for every threshold. -/
theorem umbral_score_nonneg (row : DailyMetrics) (thr : ℚ) :
    0 ≤ umbral_score row thr := by
  rw [umbral_score]
  split
  · exact le_min (by nlinarith) (by norm_num)
  · exact le_refl 0

/-- Mapping fst over row-assignment pairs recovers the rows. -/
theorem map_pair_fst {α β : Type} (g : α → β) (l : List α) :
    (l.map (fun r => (r, g r))).map Prod.fst = l := by
  induction l with
  | nil => rfl
  | cons a t ih => simpa using ih

/-- assign_smart_cluster can only produce 0, 1 or 2. -/
theorem assign_smart_cluster_mem (tl th s : ℚ) :
    assign_smart_cluster tl th s = 0 ∨ assign_smart_cluster tl th s = 1 ∨
      assign_smart_cluster tl th s = 2 := by
  rw [assign_smart_cluster]
  split
  · exact Or.inl rfl
  · split
    · exact Or.inr (Or.inl rfl)
    · exact Or.inr (Or.inr rfl)

/-! ## Claim theorems -/

/-- C1: for every well-formed DailyMetrics row (all numeric metric fields
non-negative) and every speed_threshold, calculate_risk_score and
calculate_enhanced_risk_score both lie in the interval [0, 100]. -/
theorem risk_scores_bounded (row : DailyMetrics) (speed_threshold : ℚ)
    (h1 : 0 ≤ row.excesos_por_km) (h2 : 0 ≤ row.vel_max)
    (h3 : 0 ≤ row.harsh_accel_windows) (h4 : 0 ≤ row.harsh_brake_windows)
    (h5 : 0 ≤ row.dur_exceso_tot_sec) :
    0 ≤ calculate_risk_score row ∧ calculate_risk_score row ≤ 100 ∧
      0 ≤ calculate_enhanced_risk_score row speed_threshold ∧
      calculate_enhanced_risk_score row speed_threshold ≤ 100 := by
  have he := excesos_score_nonneg row h1
  have hv := vel_score_nonneg row
  have ha := agresiv_score_nonneg row h3 h4
  have hd := duracion_score_nonneg row h5
  have hu := umbral_score_nonneg row speed_threshold
  refine ⟨?_, min_le_right _ _, ?_, min_le_right _ _⟩
  · rw [calculate_risk_score]
    exact le_min (by linarith) (by norm_num)
  · rw [calculate_enhanced_risk_score]
    exact le_min (by linarith) (by norm_num)

/-- C1 witness: the bounds instantiated at the concrete row rowB with the
default company threshold. -/
theorem risk_scores_bounded_witness :
    ((0 : ℚ) ≤ rowB.excesos_por_km ∧ (0 : ℚ) ≤ rowB.vel_max ∧
      (0 : ℚ) ≤ rowB.harsh_accel_windows ∧ (0 : ℚ) ≤ rowB.harsh_brake_windows ∧
      (0 : ℚ) ≤ rowB.dur_exceso_tot_sec) ∧
    (0 ≤ calculate_risk_score rowB ∧ calculate_risk_score rowB ≤ 100 ∧
      0 ≤ calculate_enhanced_risk_score rowB DEFAULT_SPEED_THRESHOLD ∧
      calculate_enhanced_risk_score rowB DEFAULT_SPEED_THRESHOLD ≤ 100) :=
  ⟨⟨by norm_num [rowB], by norm_num [rowB], by norm_num [rowB],
    by norm_num [rowB], by norm_num [rowB]⟩,
   risk_scores_bounded rowB DEFAULT_SPEED_THRESHOLD (by norm_num [rowB])
     (by norm_num [rowB]) (by norm_num [rowB]) (by norm_num [rowB])
     (by norm_num [rowB])⟩

/-- C3: in the non-degenerate branch (non-empty batch with score range at
least 10), after the +10 fallback the strict inequality
threshold_low < threshold_high always holds. -/
theorem threshold_ordering (scores : List ℚ) (h1 : scores ≠ [])
    (h2 : 10 ≤ listMaxQ scores - listMinQ scores) :
    threshold_low scores < threshold_high scores := by
  rw [threshold_high]
  split
  · linarith
  · next h => exact lt_of_not_ge fun hh => h hh

/-- C3 witness: the threshold ordering at the concrete batch of scores 0, 20. -/
theorem threshold_ordering_witness :
    ([(0 : ℚ), 20] ≠ [] ∧
      (10 : ℚ) ≤ listMaxQ [(0 : ℚ), 20] - listMinQ [(0 : ℚ), 20]) ∧
    threshold_low [(0 : ℚ), 20] < threshold_high [(0 : ℚ), 20] :=
  ⟨⟨by simp, by norm_num [listMaxQ, listMinQ]⟩,
   threshold_ordering [(0 : ℚ), 20] (by simp) (by norm_num [listMaxQ, listMinQ])⟩

/-- C4 (code evaluated at the failing input): pd.cut with bins [0,6,12,18,24]
gives right-closed buckets, so hour 0 belongs to no bucket at all and hour 6
lands in the Madrugada bucket rather than the morning one; the spec's
left-closed boundaries [0,6), [6,12), [12,18), [18,24) do not hold. -/
theorem franja_midnight_hour_six :
    franja_of 0 = none ∧ franja_of 6 = some Franja.madrugada := by
  decide

/-- C5 (code evaluated at the failing input): clean_text leaves the
parentheses of the annotation in place, contradicting its own docstring; the
malformed character class only matches backslash sequences absent from real
annotations. -/
theorem clean_text_keeps_parens :
    clean_text parenExample = parenExample ∧ '(' ∈ clean_text parenExample := by
  decide

/-- C10: perform_clustering on the empty batch returns the batch unchanged
together with an empty centroid table, without computing percentiles or the
degenerate branch. -/
theorem perform_clustering_empty :
    perform_clustering [] = ([], []) := rfl

/-- C2: on a non-empty scored batch the classifier returns one assignment per
record in order, every assigned tier id is 0, 1 or 2, and whenever the batch
score range is below 10 every record is assigned tier 0. -/
theorem clustering_tier_coverage (df : List DailyMetrics) (h : df ≠ []) :
    ((perform_clustering df).1.map Prod.fst = df) ∧
    ((perform_clustering df).1.all
        (fun p => p.2 == 0 || p.2 == 1 || p.2 == 2) = true) ∧
    (listMaxQ (df.map DailyMetrics.risk_score) -
        listMinQ (df.map DailyMetrics.risk_score) < 10 →
      (perform_clustering df).1.all (fun p => p.2 == 0) = true) := by
  have hne : df.isEmpty = false := by
    cases df with
    | nil => exact absurd rfl h
    | cons a t => rfl
  rw [perform_clustering, hne]
  simp only [Bool.false_eq_true, if_false]
  by_cases hr : listMaxQ (df.map DailyMetrics.risk_score) -
      listMinQ (df.map DailyMetrics.risk_score) < 10
  · rw [if_pos hr]
    refine ⟨map_pair_fst _ df, by simp [List.all_eq_true],
      fun _ => by simp [List.all_eq_true]⟩
  · rw [if_neg hr]
    refine ⟨map_pair_fst _ df, ?_, fun hc => absurd hc hr⟩
    simp only [List.all_eq_true]
    intro p hp
    simp only [List.mem_map] at hp
    obtain ⟨r, hmem, rfl⟩ := hp
    rcases assign_smart_cluster_mem
        (threshold_low (df.map DailyMetrics.risk_score))
        (threshold_high (df.map DailyMetrics.risk_score)) r.risk_score with
      h0 | h1 | h2c
    · simp [h0]
    · simp [h1]
    · simp [h2c]

/-- C2 witness: the tier-coverage statement at the concrete two-row batch. -/
theorem clustering_tier_coverage_witness :
    ([rowA, rowB] ≠ []) ∧
    (((perform_clustering [rowA, rowB]).1.map Prod.fst = [rowA, rowB]) ∧
     ((perform_clustering [rowA, rowB]).1.all
         (fun p => p.2 == 0 || p.2 == 1 || p.2 == 2) = true) ∧
     (listMaxQ ([rowA, rowB].map DailyMetrics.risk_score) -
         listMinQ ([rowA, rowB].map DailyMetrics.risk_score) < 10 →
       (perform_clustering [rowA, rowB]).1.all (fun p => p.2 == 0) = true)) :=
  ⟨by simp, clustering_tier_coverage [rowA, rowB] (by simp)⟩

/-- C6 counterexample: a row stating the excess without the zone clause has a
raw_text matching the spec-side optional-zone pattern yet is not flagged; and
a row carrying the full phrase only in the Flags column has a raw_text matched
even by the source regex itself, yet is not flagged either. -/
theorem excess_flag_iff_rawtext_false :
    speed_excess_search_spec (raw_text sampleNoZone) = true ∧
    is_exceso sampleNoZone = false ∧
    speed_excess_search (raw_text sampleFlagsOnly) = true ∧
    is_exceso sampleFlagsOnly = false := by
  decide

/-- C6 amended: the detector flags on the cleaned Evento field alone and the
zone clause is mandatory: the full phrase in Evento is flagged and yields an
episode, while the phrase without a zone clause, or the full phrase placed
only in Flags, is not flagged and yields none. -/
theorem excess_flag_evento_only_zone_required :
    is_exceso sampleWithZone = true ∧ is_exceso sampleNoZone = false ∧
    is_exceso sampleFlagsOnly = false ∧
    detect_speed_excesses [sampleWithZone] = [Episode.mk 0 0] ∧
    detect_speed_excesses [sampleNoZone] = [] ∧
    detect_speed_excesses [sampleFlagsOnly] = [] := by
  decide

/-- Unfolding equation: a cons whose tail splits to no runs. -/
theorem splitRuns_cons_nil {α : Type} (R : α → α → Bool) (a : α) {as : List α}
    (hsp : splitRuns R as = []) : splitRuns R (a :: as) = [[a]] := by
  rw [splitRuns, hsp]

/-- Unfolding equation: the (never produced) empty-first-run shape. -/
theorem splitRuns_cons_nilrun {α : Type} (R : α → α → Bool) (a : α) {as : List α}
    {rs : List (List α)} (hsp : splitRuns R as = [] :: rs) :
    splitRuns R (a :: as) = [a] :: rs := by
  rw [splitRuns, hsp]

/-- Unfolding equation: a cons whose tail splits to a non-empty first run. -/
theorem splitRuns_cons_cons {α : Type} (R : α → α → Bool) (a b : α) {as t : List α}
    {rs : List (List α)} (hsp : splitRuns R as = (b :: t) :: rs) :
    splitRuns R (a :: as) =
      if R a b then (a :: b :: t) :: rs else [a] :: (b :: t) :: rs := by
  rw [splitRuns, hsp]

/-- The runs flatten back to the original sequence. -/
theorem splitRuns_flatten {α : Type} (R : α → α → Bool) :
    ∀ l : List α, (splitRuns R l).flatten = l
  | [] => rfl
  | a :: as => by
    have ih := splitRuns_flatten R as
    cases hsp : splitRuns R as with
    | nil =>
      rw [hsp] at ih
      simp only [List.flatten_nil] at ih
      rw [splitRuns_cons_nil R a hsp]
      simp [← ih]
    | cons r0 rs =>
      rw [hsp] at ih
      cases r0 with
      | nil =>
        rw [splitRuns_cons_nilrun R a hsp]
        simp only [List.flatten_cons, List.nil_append] at ih
        simp only [List.flatten_cons]
        rw [ih]
        rfl
      | cons b t =>
        rw [splitRuns_cons_cons R a b hsp]
        by_cases hR : R a b = true
        · rw [if_pos hR]
          simp only [List.flatten_cons] at ih ⊢
          simp [← ih]
        · rw [if_neg hR]
          simp only [List.flatten_cons] at ih ⊢
          simp [← ih]

/-- No produced run is empty. -/
theorem splitRuns_ne_nil {α : Type} (R : α → α → Bool) :
    ∀ l : List α, ∀ r ∈ splitRuns R l, r ≠ []
  | [] => by simp [splitRuns]
  | a :: as => by
    have ih := splitRuns_ne_nil R as
    cases hsp : splitRuns R as with
    | nil =>
      rw [splitRuns_cons_nil R a hsp]
      intro r hr
      simp at hr
      simp [hr]
    | cons r0 rs =>
      rw [hsp] at ih
      cases r0 with
      | nil =>
        rw [splitRuns_cons_nilrun R a hsp]
        intro r hr
        rcases List.mem_cons.mp hr with h | h
        · simp [h]
        · exact ih r (List.mem_cons_of_mem _ h)
      | cons b t =>
        rw [splitRuns_cons_cons R a b hsp]
        by_cases hR : R a b = true
        · rw [if_pos hR]
          intro r hr
          rcases List.mem_cons.mp hr with h | h
          · simp [h]
          · exact ih r (List.mem_cons_of_mem _ h)
        · rw [if_neg hR]
          intro r hr
          rcases List.mem_cons.mp hr with h | h
          · simp [h]
          · exact ih r h

/-- The first produced run starts with the first element. -/
theorem splitRuns_cons_shape {α : Type} (R : α → α → Bool) (a : α) (as : List α) :
    ∃ t rs, splitRuns R (a :: as) = (a :: t) :: rs := by
  cases hsp : splitRuns R as with
  | nil => exact ⟨[], [], splitRuns_cons_nil R a hsp⟩
  | cons r0 rs =>
    cases r0 with
    | nil => exact ⟨[], rs, splitRuns_cons_nilrun R a hsp⟩
    | cons b t =>
      by_cases hR : R a b = true
      · exact ⟨b :: t, rs, by rw [splitRuns_cons_cons R a b hsp, if_pos hR]⟩
      · exact ⟨[], (b :: t) :: rs, by rw [splitRuns_cons_cons R a b hsp, if_neg hR]⟩

/-- A non-empty block on which R holds pairwise forms a single run. -/
theorem splitRuns_pairwise {α : Type} (R : α → α → Bool) :
    ∀ l : List α, l ≠ [] → (∀ x ∈ l, ∀ y ∈ l, R x y = true) →
      splitRuns R l = [l]
  | [], h, _ => absurd rfl h
  | [_], _, _ => rfl
  | a :: b :: as, _, hall => by
    have ih := splitRuns_pairwise R (b :: as) (by simp)
      (fun x hx y hy =>
        hall x (List.mem_cons_of_mem a hx) y (List.mem_cons_of_mem a hy))
    rw [splitRuns_cons_cons R a b ih, if_pos (hall a (by simp) b (by simp))]

/-- Splitting distributes over an append whose boundary breaks R. -/
theorem splitRuns_append {α : Type} (R : α → α → Bool) :
    ∀ (xs ys : List α) (x y : α), xs.getLast? = some x → ys.head? = some y →
      R x y = false → splitRuns R (xs ++ ys) = splitRuns R xs ++ splitRuns R ys
  | [], _, _, _, hx, _, _ => by simp at hx
  | [a], ys, x, y, hx, hy, hxy => by
    have hax : a = x := by simpa using hx
    subst hax
    cases ys with
    | nil => simp at hy
    | cons b ys2 =>
      have hby : b = y := by simpa using hy
      subst hby
      obtain ⟨t, rs, hshape⟩ := splitRuns_cons_shape R b ys2
      rw [List.singleton_append, splitRuns_cons_cons R a b hshape,
        if_neg (by simp [hxy] : ¬R a b = true), hshape]
      rfl
  | a :: a2 :: xs2, ys, x, y, hx, hy, hxy => by
    have hlast : (a2 :: xs2).getLast? = some x := by
      rwa [List.getLast?_cons_cons] at hx
    have ih := splitRuns_append R (a2 :: xs2) ys x y hlast hy hxy
    obtain ⟨t, rs, hshape⟩ := splitRuns_cons_shape R a2 xs2
    have hsp2 : splitRuns R ((a2 :: xs2) ++ ys) =
        (a2 :: t) :: (rs ++ splitRuns R ys) := by
      rw [ih, hshape, List.cons_append]
    rw [List.cons_append, splitRuns_cons_cons R a a2 hsp2,
      splitRuns_cons_cons R a a2 hshape]
    by_cases hR : R a a2 = true
    · rw [if_pos hR, if_pos hR, List.cons_append]
    · rw [if_neg hR, if_neg hR, List.cons_append, List.cons_append]

/-- With boolean-equality grouping every run is a constant block. -/
theorem splitRuns_bool_const :
    ∀ l : List Bool, ∀ r ∈ splitRuns (fun a b => a == b) l,
      ∀ x ∈ r, ∀ y ∈ r, x = y
  | [] => by simp [splitRuns]
  | a :: as => by
    have ih := splitRuns_bool_const as
    cases hsp : splitRuns (fun a b => a == b) as with
    | nil =>
      rw [splitRuns_cons_nil _ a hsp]
      intro r hr x hx y hy
      simp at hr
      subst hr
      simp at hx hy
      rw [hx, hy]
    | cons r0 rs =>
      rw [hsp] at ih
      cases r0 with
      | nil =>
        rw [splitRuns_cons_nilrun _ a hsp]
        intro r hr x hx y hy
        rcases List.mem_cons.mp hr with h | h
        · subst h
          simp at hx hy
          rw [hx, hy]
        · exact ih r (List.mem_cons_of_mem _ h) x hx y hy
      | cons b t =>
        rw [splitRuns_cons_cons _ a b hsp]
        by_cases hR : (a == b) = true
        · rw [if_pos hR]
          have hab : a = b := by simpa using hR
          intro r hr x hx y hy
          rcases List.mem_cons.mp hr with h | h
          · subst h
            have hbt := ih (b :: t) (List.mem_cons_self _ _)
            have hx2 : x = b := by
              rcases List.mem_cons.mp hx with rfl | hx2
              · exact hab
              · exact hbt x hx2 b (List.mem_cons_self _ _)
            have hy2 : y = b := by
              rcases List.mem_cons.mp hy with rfl | hy2
              · exact hab
              · exact hbt y hy2 b (List.mem_cons_self _ _)
            rw [hx2, hy2]
          · exact ih r (List.mem_cons_of_mem _ h) x hx y hy
        · rw [if_neg hR]
          intro r hr x hx y hy
          rcases List.mem_cons.mp hr with h | h
          · subst h
            simp at hx hy
            rw [hx, hy]
          · exact ih r h x hx y hy

/-- Adjacent runs are separated by a boundary on which R fails. -/
theorem splitRuns_chain {α : Type} (R : α → α → Bool) :
    ∀ l : List α,
      List.Chain'
        (fun r s => ∀ x y, r.getLast? = some x → s.head? = some y →
          R x y = false)
        (splitRuns R l)
  | [] => by simp [splitRuns]
  | a :: as => by
    have ih := splitRuns_chain R as
    have hnil := splitRuns_ne_nil R as
    cases hsp : splitRuns R as with
    | nil =>
      rw [splitRuns_cons_nil R a hsp]
      simp
    | cons r0 rs =>
      rw [hsp] at ih hnil
      cases r0 with
      | nil => exact absurd rfl (hnil [] (List.mem_cons_self _ _))
      | cons b t =>
        rw [splitRuns_cons_cons R a b hsp]
        by_cases hR : R a b = true
        · rw [if_pos hR]
          cases rs with
          | nil => simp
          | cons s rs2 =>
            rw [List.chain'_cons] at ih ⊢
            refine ⟨fun x y hx hy => ih.1 x y ?_ hy, ih.2⟩
            rwa [List.getLast?_cons_cons] at hx
        · rw [if_neg hR]
          rw [List.chain'_cons]
          refine ⟨fun x y hx hy => ?_, ih⟩
          have hx2 : a = x := by simpa using hx
          have hy2 : b = y := by simpa using hy
          subst hx2
          subst hy2
          cases hab : R a b with
          | false => rfl
          | true => exact absurd hab hR

/-- A flagged run anywhere in the run list yields its episode, whose next
sample is the first sample of the remaining runs. -/
theorem episodes_mem :
    ∀ (A B : List (List Sample)) (r : List Sample) (s0 : Sample),
      r.head? = some s0 → is_exceso s0 = true →
      Episode.mk s0.hora (run_duration r B.flatten.head?) ∈
        episodes_of_runs (A ++ r :: B)
  | [], B, r, s0, hh, hf => by
    cases r with
    | nil => cases hh
    | cons a t =>
      have ha : a = s0 := by simpa using hh
      subst ha
      rw [List.nil_append, episodes_of_runs, if_pos hf]
      exact List.mem_cons_self _ _
  | A0 :: A, B, r, s0, hh, hf => by
    have ih := episodes_mem A B r s0 hh hf
    cases A0 with
    | nil =>
      rw [List.cons_append, episodes_of_runs]
      exact ih
    | cons a t =>
      rw [List.cons_append, episodes_of_runs]
      by_cases hE : is_exceso a = true
      · rw [if_pos hE]
        exact List.mem_cons_of_mem _ ih
      · rw [if_neg hE]
        exact ih

/-- An all-flagged run followed by an unflagged boundary forms the first run
of its suffix. -/
theorem splitRuns_run_post (run post : List Sample)
    (hne : run ≠ []) (hflag : run.all is_exceso = true)
    (hpost : boundary_ok post.head? = true) :
    splitRuns sameFlag (run ++ post) = run :: splitRuns sameFlag post := by
  have hall : ∀ x ∈ run, ∀ y ∈ run, sameFlag x y = true := by
    intro x hx y hy
    have hx2 := List.all_eq_true.mp hflag x hx
    have hy2 := List.all_eq_true.mp hflag y hy
    simp [sameFlag, hx2, hy2]
  have hrun : splitRuns sameFlag run = [run] :=
    splitRuns_pairwise sameFlag run hne hall
  cases post with
  | nil =>
    rw [List.append_nil, hrun]
    rfl
  | cons q0 post2 =>
    have hq0 : is_exceso q0 = false := by simpa [boundary_ok] using hpost
    obtain ⟨ps, lx, hconcat⟩ : ∃ L b, run = L ++ [b] := by
      rcases List.eq_nil_or_concat run with rfl | ⟨L, b, hL⟩
      · exact absurd rfl hne
      · exact ⟨L, b, by rw [hL, List.concat_eq_append]⟩
    have hlx : is_exceso lx = true :=
      List.all_eq_true.mp hflag lx
        (by rw [hconcat]; exact List.mem_append_right _ (List.mem_cons_self _ _))
    have hbound : sameFlag lx q0 = false := by simp [sameFlag, hlx, hq0]
    rw [splitRuns_append sameFlag run (q0 :: post2) lx q0
      (by rw [hconcat]; simp) rfl hbound, hrun]
    rfl

/-- Decomposition: an all-flagged maximal run splits the whole day sequence
into the runs of its prefix, itself, and the runs of its suffix. -/
theorem splitRuns_decomp (pre run post : List Sample)
    (hne : run ≠ []) (hflag : run.all is_exceso = true)
    (hpre : boundary_ok pre.getLast? = true)
    (hpost : boundary_ok post.head? = true) :
    splitRuns sameFlag (pre ++ run ++ post) =
      splitRuns sameFlag pre ++ run :: splitRuns sameFlag post := by
  rcases List.eq_nil_or_concat pre with rfl | ⟨ps, x, hpe⟩
  · rw [List.nil_append, splitRuns_run_post run post hne hflag hpost]
    rfl
  · rw [List.concat_eq_append] at hpe
    subst hpe
    have hx_last : (ps ++ [x]).getLast? = some x := by simp
    have hxflag : is_exceso x = false := by
      rw [hx_last] at hpre
      simpa [boundary_ok] using hpre
    obtain ⟨s0, t, hrt⟩ : ∃ s0 t, run = s0 :: t := by
      cases run with
      | nil => exact absurd rfl hne
      | cons s0 t => exact ⟨s0, t, rfl⟩
    subst hrt
    have hs0 : is_exceso s0 = true :=
      List.all_eq_true.mp hflag s0 (List.mem_cons_self _ _)
    have hbound1 : sameFlag x s0 = false := by simp [sameFlag, hxflag, hs0]
    have hhead2 : ((s0 :: t) ++ post).head? = some s0 := by simp
    rw [List.append_assoc,
      splitRuns_append sameFlag (ps ++ [x]) ((s0 :: t) ++ post) x s0 hx_last
        hhead2 hbound1,
      splitRuns_run_post (s0 :: t) post hne hflag hpost]

/-- C8: for any boolean flag sequence, the changed-since-previous grouping
partitions the sequence exactly: the runs flatten back to it, every run is a
non-empty constant block, and adjacent runs carry different flag values. -/
theorem run_partition (flags : List Bool) :
    (splitRuns (fun a b => a == b) flags).flatten = flags ∧
    (∀ r ∈ splitRuns (fun a b => a == b) flags,
      r ≠ [] ∧ ∀ x ∈ r, ∀ y ∈ r, x = y) ∧
    List.Chain'
      (fun r s => ∀ x y, r.getLast? = some x → s.head? = some y → x ≠ y)
      (splitRuns (fun a b => a == b) flags) := by
  refine ⟨splitRuns_flatten _ flags,
    fun r hr => ⟨splitRuns_ne_nil _ flags r hr, splitRuns_bool_const flags r hr⟩,
    List.Chain'.imp ?_ (splitRuns_chain (fun a b => a == b) flags)⟩
  intro r s h x y hx hy
  simpa using h x y hx hy

/-- C7: every maximal flagged run of the day sequence produces an episode
whose duration equals the baseline (next-sample timestamp minus the run-start
timestamp when a sample follows the run, else the run's own dt_sec sum) PLUS
the additive minutes override (60 times the maximum durante-N-minutos value
over the run, when one is present). -/
theorem episode_duration_formula (pre run post : List Sample) (s0 : Sample)
    (hhead : run.head? = some s0)
    (hflag : run.all is_exceso = true)
    (hpre : boundary_ok pre.getLast? = true)
    (hpost : boundary_ok post.head? = true) :
    Episode.mk s0.hora
        ((match post.head? with
          | some nxt => nxt.hora - s0.hora
          | none => (run.map Sample.dt_sec).sum) +
         (match run_minutes run with
          | some m => (m : Int) * 60
          | none => 0))
      ∈ detect_speed_excesses (pre ++ run ++ post) := by
  obtain ⟨a, t, hrt⟩ : ∃ a t, run = a :: t := by
    cases run with
    | nil => cases hhead
    | cons a t => exact ⟨a, t, rfl⟩
  subst hrt
  have ha : a = s0 := by simpa using hhead
  subst ha
  have hne : a :: t ≠ [] := by simp
  have hs0 : is_exceso a = true :=
    List.all_eq_true.mp hflag a (List.mem_cons_self _ _)
  have hmem := episodes_mem (splitRuns sameFlag pre) (splitRuns sameFlag post)
    (a :: t) a rfl hs0
  rw [splitRuns_flatten] at hmem
  have hdur :
      (match post.head? with
        | some nxt => nxt.hora - a.hora
        | none => ((a :: t).map Sample.dt_sec).sum) +
        (match run_minutes (a :: t) with
          | some m => (m : Int) * 60
          | none => 0) = run_duration (a :: t) post.head? := by
    cases hph : post.head? with
    | none =>
      cases hrm : run_minutes (a :: t) with
      | none => simp [run_duration, hrm]
      | some m =>
        simp only [run_duration, hrm]
        exact add_comm _ _
    | some nxt =>
      cases hrm : run_minutes (a :: t) with
      | none => simp [run_duration, hrm]
      | some m =>
        simp only [run_duration, hrm]
        exact add_comm _ _
  rw [detect_speed_excesses,
    splitRuns_decomp pre (a :: t) post hne hflag hpre hpost, hdur]
  exact hmem

/-- C7 witness: the duration formula at a concrete three-sample day: an
unflagged row at t=0, a flagged one-row run at t=60 carrying a two-minutes
phrase, and a following unflagged row at t=180; the produced episode starts
at 60 and lasts 2*60 + (180-60) = 240 seconds. -/
theorem episode_duration_formula_witness :
    ([sExc].head? = some sExc ∧ [sExc].all is_exceso = true ∧
      boundary_ok ([sOK].getLast?) = true ∧
      boundary_ok ([sNext].head?) = true) ∧
    Episode.mk 60 240 ∈ detect_speed_excesses ([sOK] ++ [sExc] ++ [sNext]) :=
  ⟨⟨rfl, by decide, by decide, by decide⟩,
   episode_duration_formula [sOK] [sExc] [sNext] sExc rfl (by decide)
     (by decide) (by decide)⟩

/-- C9: a day whose pipeline raises contributes nothing, and the surrounding
days of the same batch are processed exactly as if the bad day were absent. -/
theorem process_vehicle_files_skips_bad_day {α β ε : Type}
    (process_one : α → Except ε β) (xs ys : List α) (bad : α) (e : ε)
    (hbad : process_one bad = Except.error e) :
    process_vehicle_files process_one (xs ++ bad :: ys) =
      process_vehicle_files process_one xs ++
        process_vehicle_files process_one ys := by
  rw [process_vehicle_files, process_vehicle_files, process_vehicle_files,
    List.filterMap_append, List.filterMap_cons]
  simp [hbad, Except.toOption]

/-- C9 witness: the skip property at the concrete day batch [1, 2, 0, 3]
where day 0 raises. -/
theorem process_vehicle_files_skips_bad_day_witness :
    procDay 0 = Except.error (("dia invalido").toList) ∧
    process_vehicle_files procDay ([1, 2] ++ 0 :: [3]) =
      process_vehicle_files procDay [1, 2] ++ process_vehicle_files procDay [3] :=
  ⟨rfl, process_vehicle_files_skips_bad_day procDay [1, 2] [3] 0
    (("dia invalido").toList) rfl⟩
